import Mathlib

set_option autoImplicit false

/-!
Verification of the WorkSync MCP server persistence core (server.py).

The development shallowly embeds the parts of `server.py` that the
specification talks about:

* the YAML document values handled by `yaml.safe_load` / `yaml.dump`
  (modelled as `YVal`, ordered key/value maps since the server dumps with
  `sort_keys=False` and Python dicts preserve insertion order; the textual
  YAML codec of the external library is modelled as a faithful,
  deterministic, order-preserving encoding, so a file body is represented
  by the `YVal` it parses to);
* the structured documents built by the mutation tools (`WorkIndex`,
  `Sprint`, `Story`, `BacklogItem`, `HistoryEntry`);
* the store (`load_work_index` / `save_work_index`) including the mtime
  cache, the temp-write/validate/replace sequence and its failure
  handling;
* the debounce scheduler (`queue_sync` / `run_sync` over `_sync_timers`);
* the mutation tools (`worksync_add_backlog`, `worksync_update_backlog`,
  `worksync_create_sprint`, `worksync_update_sprint`, `worksync_add_story`,
  `worksync_update_story`, `worksync_done`).
-/

namespace WorkSync

/-- YAML values as produced by `yaml.safe_load` on work-index documents:
strings, sequences, and mappings.  A mapping is an ordered association list
because `yaml.dump(data, sort_keys=False)` keeps insertion order. -/
inductive YVal where
  | str (s : String)
  | seq (xs : List YVal)
  | map (kvs : List (String × YVal))

/-- Python truthiness for the values of `YVal`: `"" or {}`, `[] or {}` and
`\x7b\x7d or \x7b\x7d` all yield the empty dict in `yaml.safe_load(f) or \x7b\x7d`. -/
def pyFalsy : YVal → Bool
  | .str s => s == ""
  | .seq xs => xs.isEmpty
  | .map kvs => kvs.isEmpty

/-- Association-list lookup, the model of `dict.__getitem__` / `dict.get`. -/
def yLookup (k : String) : List (String × YVal) → Option YVal
  | [] => none
  | (k2, v) :: rest => if k2 == k then some v else yLookup k rest

/-- Model of `data.get(k, default)` on a parsed document. -/
def dictGet (d : YVal) (k : String) (dflt : YVal) : YVal :=
  match d with
  | .map kvs => (yLookup k kvs).getD dflt
  | _ => dflt

/- ## Structured document model

The dict shapes built by the mutation tools in server.py. -/

/-- A story dict as built by `worksync_add_story` (server.py:603-605):
keys `id`, `status`, and `notes` only when present. -/
structure Story where
  id : String
  status : String
  notes : Option String
deriving DecidableEq, Repr

/-- An entry of a `stories` list.  The server tolerates entries that are
not dicts (`isinstance(story, dict)` guards, e.g. server.py:600, 644, 694);
those are modelled as raw scalars and skipped by every tool. -/
inductive StoryEntry where
  | story (st : Story)
  | other (raw : String)
deriving DecidableEq, Repr

/-- A sprint dict as built by `worksync_create_sprint` (server.py:500-508),
keys in insertion order: id, title, file, status, goal, themes, stories. -/
structure Sprint where
  id : String
  title : String
  file : String
  status : String
  goal : String
  themes : List String
  stories : List StoryEntry
deriving DecidableEq, Repr

/-- A backlog dict as built by `worksync_add_backlog` (server.py:372-378),
keys in insertion order: id, theme, summary, status, related_sprints. -/
structure BacklogItem where
  id : String
  theme : String
  summary : String
  status : String
  related_sprints : List String
deriving DecidableEq, Repr

/-- A history dict: keys date, summary, and optionally related_sprints
(always present for `worksync_done`, server.py:712-716; absent for the
bootstrap entry of `worksync_register_project`, server.py:941-946). -/
structure HistoryEntry where
  date : String
  summary : String
  related_sprints : Option (List String)
deriving DecidableEq, Repr

/-- A work-index document with its three top-level sequences. -/
structure WorkIndex where
  sprints : List Sprint
  backlog : List BacklogItem
  history : List HistoryEntry
deriving DecidableEq, Repr

/- ## Encoding structured documents as YAML values

`docToY` reproduces exactly the dict literals the tools build, in their
insertion order; `docOfY` is the decoder recovering the structure. -/

def storyEntryToY : StoryEntry → YVal
  | .story st =>
      .map ([("id", .str st.id), ("status", .str st.status)] ++
            (match st.notes with
             | some n => [("notes", .str n)]
             | none => []))
  | .other raw => .str raw

def storyEntryOfY : YVal → Option StoryEntry
  | .str raw => some (.other raw)
  | .map [("id", .str i), ("status", .str s)] => some (.story ⟨i, s, none⟩)
  | .map [("id", .str i), ("status", .str s), ("notes", .str n)] =>
      some (.story ⟨i, s, some n⟩)
  | _ => none

def strOfY : YVal → Option String
  | .str s => some s
  | _ => none

/-- Decode each element of a YAML sequence; fail if any element fails. -/
def decodeList {α : Type} (f : YVal → Option α) : List YVal → Option (List α)
  | [] => some []
  | v :: vs =>
    match f v with
    | none => none
    | some a =>
      match decodeList f vs with
      | none => none
      | some as => some (a :: as)

def sprintToY (sp : Sprint) : YVal :=
  .map [("id", .str sp.id), ("title", .str sp.title), ("file", .str sp.file),
        ("status", .str sp.status), ("goal", .str sp.goal),
        ("themes", .seq (sp.themes.map YVal.str)),
        ("stories", .seq (sp.stories.map storyEntryToY))]

def sprintOfY : YVal → Option Sprint
  | .map [("id", .str i), ("title", .str t), ("file", .str f),
          ("status", .str s), ("goal", .str g),
          ("themes", .seq th), ("stories", .seq sts)] =>
    match decodeList strOfY th, decodeList storyEntryOfY sts with
    | some themes, some stories => some ⟨i, t, f, s, g, themes, stories⟩
    | _, _ => none
  | _ => none

def backlogToY (b : BacklogItem) : YVal :=
  .map [("id", .str b.id), ("theme", .str b.theme), ("summary", .str b.summary),
        ("status", .str b.status),
        ("related_sprints", .seq (b.related_sprints.map YVal.str))]

def backlogOfY : YVal → Option BacklogItem
  | .map [("id", .str i), ("theme", .str t), ("summary", .str s),
          ("status", .str st), ("related_sprints", .seq rs)] =>
    match decodeList strOfY rs with
    | some rel => some ⟨i, t, s, st, rel⟩
    | none => none
  | _ => none

def historyToY (h : HistoryEntry) : YVal :=
  .map ([("date", .str h.date), ("summary", .str h.summary)] ++
        (match h.related_sprints with
         | some rs => [("related_sprints", .seq (rs.map YVal.str))]
         | none => []))

def historyOfY : YVal → Option HistoryEntry
  | .map [("date", .str d), ("summary", .str s)] => some ⟨d, s, none⟩
  | .map [("date", .str d), ("summary", .str s), ("related_sprints", .seq rs)] =>
    match decodeList strOfY rs with
    | some rel => some ⟨d, s, some rel⟩
    | none => none
  | _ => none

def docToY (d : WorkIndex) : YVal :=
  .map [("sprints", .seq (d.sprints.map sprintToY)),
        ("backlog", .seq (d.backlog.map backlogToY)),
        ("history", .seq (d.history.map historyToY))]

def docOfY : YVal → Option WorkIndex
  | .map [("sprints", .seq sps), ("backlog", .seq bls), ("history", .seq hs)] =>
    match decodeList sprintOfY sps, decodeList backlogOfY bls,
          decodeList historyOfY hs with
    | some sprints, some backlog, some history => some ⟨sprints, backlog, history⟩
    | _, _, _ => none
  | _ => none

/- ## On-disk file and store model -/

/-- The content of a work-index file: whether the fixed `YAML_HEADER`
comment line is present, and the YAML document body.  `body = none` models
an empty file / null document (`yaml.safe_load` returns `None`).  The
textual layer of the external yaml library is modelled as faithful, so two
files are byte-identical iff they are equal as `WFile`. -/
structure WFile where
  hasHeader : Bool
  body : Option YVal

/-- Content written by `save_work_index` (server.py:183):
`YAML_HEADER + yaml.dump(data, default_flow_style=False, sort_keys=False)`. -/
def saveContent (d : YVal) : WFile := ⟨true, some d⟩

/-- Parsing a file on load (server.py:173-174):
`yaml.safe_load(f) or \x7b\x7d` — comments are skipped, a null or falsy
document becomes the empty dict. -/
def parseFile (f : WFile) : YVal :=
  match f.body with
  | none => .map []
  | some v => if pyFalsy v then .map [] else v

/-- Errors raised or returned by the server, by taxonomy. -/
inductive WErr where
  | notFound (what : String)
  | invalidStatus (entity given : String)
  | conflict (what : String)
deriving DecidableEq, Repr

/-- State of the store for one document path: the file (none = missing),
the modification timestamp on disk, and the `_mtime_cache` entry. -/
structure StoreState where
  file : Option WFile
  mtime : Nat
  cache : Option Nat

/-- Result of `load_work_index`: the parsed data, the updated
`_mtime_cache` entry, and whether the external-edit warning was logged. -/
structure LoadResult where
  data : YVal
  cache : Option Nat
  externalEdit : Bool

/-- Model of `_load_work_index` (server.py:158-177): raise `NotFound` if
the file is missing; otherwise read the current mtime, log (but do not
reject) when a cached mtime exists and differs, parse the on-disk content
(`or \x7b\x7d`), and update the cache to the observed mtime. -/
def load_work_index (project : String) (st : StoreState) : Except WErr LoadResult :=
  match st.file with
  | none => .error (.notFound project)
  | some f =>
    let warned : Bool :=
      match st.cache with
      | some c => decide (c ≠ st.mtime)
      | none => false
    .ok ⟨parseFile f, some st.mtime, warned⟩

/-- The universal tool skeleton: load the document fresh from disk,
transform it, and commit the transform via `save_work_index`.  Returns the
committed file content. -/
def loadThenSave (project : String) (st : StoreState) (transform : YVal → YVal) :
    Except WErr WFile :=
  match load_work_index project st with
  | .error e => .error e
  | .ok r => .ok (saveContent (transform r.data))

/- ## File-system model of the atomic save (server.py:180-206) -/

/-- Byte contents of the target path and of the temporary file, `none`
when the file does not exist. -/
structure Fs where
  target : Option String
  tmp : Option String
deriving DecidableEq, Repr

/-- Outcome of one `save_work_index` attempt: `raised = true` models the
function re-raising out of its `except` block instead of returning. -/
structure SaveOutcome where
  raised : Bool
  fs : Fs
deriving DecidableEq, Repr

/-- Model of the body of `_save_work_index` under the lock
(server.py:185-206), with failure injection at the three fallible steps:
the temp-file write (`os.write`), the validation re-parse
(`yaml.safe_load` of the temp file), and the atomic replace
(`os.replace`).  `tempfile.mkstemp` creates an empty temp file; on any
exception the handler closes the fd if open, removes the temp file if it
exists, and re-raises; `os.replace` is atomic, so on its failure the
target is unchanged. -/
def save_work_index_fs (content : String)
    (failWrite failValidate failReplace : Bool) (fs : Fs) : SaveOutcome :=
  let fs1 : Fs := { fs with tmp := some "" }
  if failWrite then
    ⟨true, { fs1 with tmp := none }⟩
  else
    let fs2 : Fs := { fs1 with tmp := some content }
    if failValidate then
      ⟨true, { fs2 with tmp := none }⟩
    else if failReplace then
      ⟨true, { fs2 with tmp := none }⟩
    else
      ⟨false, { target := some content, tmp := none }⟩

/- ## Write-event model (which disk writes happen where, and how) -/

inductive WriteKind where
  | atomicReplace
  | inPlace
deriving DecidableEq, Repr

/-- One write of a file on disk: the path written, whether it was an
atomic `os.replace` of a validated temp file or a direct in-place
`open(path, "w")` write, and whether it happened inside `with _lock`. -/
structure WriteEvent where
  path : String
  kind : WriteKind
  underLock : Bool
deriving DecidableEq, Repr

def workIndexPath (project : String) : String :=
  "projects/" ++ project ++ "/work-index.yaml"

def configPath : String := "config.yaml"

/-- Disk writes performed by `_save_work_index` (server.py:185-197): a
single atomic replace of the work-index path, inside `with _lock`. -/
def save_work_index_writes (project : String) : List WriteEvent :=
  [⟨workIndexPath project, .atomicReplace, true⟩]

/-- Disk writes performed by `worksync_register_project`, in program
order: the initial work-index is written with a plain
`open(work_index_path, "w") ... f.write(content)` (server.py:950-951),
outside any lock; then config.yaml is written by temp-write plus
`os.replace` inside `with _lock` (server.py:966-978). -/
def register_project_writes (name : String) : List WriteEvent :=
  [⟨workIndexPath name, .inPlace, false⟩,
   ⟨configPath, .atomicReplace, true⟩]

/- ## Debounce scheduler model (server.py:213-242) -/

/-- Model of the module state `_sync_timers : dict[str, threading.Timer]`
plus a supply of fresh timer ids (one per `threading.Timer` created). -/
structure SchedState where
  timers : List (String × Nat)
  nextId : Nat
deriving DecidableEq, Repr

def lookupTimer (s : SchedState) (p : String) : Option Nat :=
  match s.timers.find? (fun q => q.1 == p) with
  | some q => some q.2
  | none => none

/-- Replace the binding of `p` (or add one), the model of
`_sync_timers[project] = timer`. -/
def upsertTimer : List (String × Nat) → String → Nat → List (String × Nat)
  | [], p, v => [(p, v)]
  | (q, w) :: rest, p, v =>
    if q == p then (p, v) :: rest else (q, w) :: upsertTimer rest p v

/-- Model of `_queue_sync` (server.py:213-220): cancel the pending timer
for the project if one exists, create a fresh timer, store it in the slot
and start it.  The second component is the id of the timer that was
cancelled, if any. -/
def queue_sync (s : SchedState) (p : String) : SchedState × Option Nat :=
  (⟨upsertTimer s.timers p s.nextId, s.nextId + 1⟩, lookupTimer s p)

/-- Effect of `_run_sync` (server.py:223-242) on the timer map: none.
The function launches sync.py and logs, but never touches `_sync_timers`;
in particular it does not clear the slot of the timer that just fired. -/
def run_sync_timers (s : SchedState) (_p : String) : SchedState := s

/-- Semantics of `threading.Timer` under `_queue_sync` for one project:
given the chronological list of commit times, the timer armed at time `t`
fires at `t + delay` unless the next commit re-arms (cancels) it first,
i.e. unless that commit comes strictly before `t + delay`.  Cancelling an
already-fired timer is a no-op, so a commit at or after `t + delay` leaves
the earlier fire in place.  Returns the times of the regeneration runs. -/
def firesOf (delay : Nat) : List Nat → List Nat
  | [] => []
  | [t] => [t + delay]
  | t :: t2 :: rest =>
    if t2 < t + delay then firesOf delay (t2 :: rest)
    else (t + delay) :: firesOf delay (t2 :: rest)

/- ## Mutation tools (server.py:338-725) -/

/-- Valid backlog statuses (server.py:365). -/
def backlogStatuses : List String := ["todo", "in_progress", "done"]

/-- Valid story statuses (server.py:590, 649). -/
def storyStatuses : List String := ["planned", "in_progress", "done"]

/-- Valid sprint statuses (server.py:492, 549). -/
def sprintStatuses : List String := ["planned", "active", "reference", "completed"]

/-- Result of one tool call: the returned value or structured error, the
in-memory document after the call, and the documents committed to disk via
`_save_work_index`, in order. -/
structure ToolOut (α : Type) where
  result : Except WErr α
  doc : WorkIndex
  saved : List WorkIndex

/-- Disk writes a tool performs on the work-index path: one
`save_work_index_writes` batch per committed document (every mutation tool
writes the work-index only through `_save_work_index`). -/
def toolDiskWrites {α : Type} (project : String) (out : ToolOut α) : List WriteEvent :=
  out.saved.flatMap (fun _ => save_work_index_writes project)

/-- Mutating the first matching element of a list in place, the model of
`next((x for x in xs if pred(x)), None)` followed by field assignment on
the found dict. -/
def updateFirst {α : Type} (p : α → Bool) (f : α → α) : List α → List α
  | [] => []
  | x :: xs => if p x then f x :: xs else x :: updateFirst p f xs

/-- Model of `worksync_add_backlog` (server.py:339-383): status check,
duplicate-id check over the backlog, then append and save. -/
def worksync_add_backlog (d : WorkIndex) (i summary theme status : String)
    (related : Option (List String)) : ToolOut BacklogItem :=
  if backlogStatuses.contains status = false then
    ⟨.error (.invalidStatus "backlog" status), d, []⟩
  else if d.backlog.any (fun b => b.id == i) then
    ⟨.error (.conflict i), d, []⟩
  else
    let item : BacklogItem := ⟨i, theme, summary, status, related.getD []⟩
    let d2 : WorkIndex := { d with backlog := d.backlog ++ [item] }
    ⟨.ok item, d2, [d2]⟩

/-- The field assignments of `worksync_update_backlog` (server.py:418-427):
each field is overwritten exactly when the caller supplied it. -/
def applyBacklogUpdate (status summary theme : Option String)
    (related : Option (List String)) (b : BacklogItem) : BacklogItem :=
  { b with status := status.getD b.status, summary := summary.getD b.summary,
           theme := theme.getD b.theme,
           related_sprints := related.getD b.related_sprints }

/-- Model of `worksync_update_backlog` (server.py:387-431): find the item,
validate the supplied status before touching anything, then apply exactly
the supplied fields to the found item and save. -/
def worksync_update_backlog (d : WorkIndex) (i : String)
    (status summary theme : Option String) (related : Option (List String)) :
    ToolOut BacklogItem :=
  match d.backlog.find? (fun b => b.id == i) with
  | none => ⟨.error (.notFound i), d, []⟩
  | some item =>
    match status with
    | some s =>
      if backlogStatuses.contains s = false then
        ⟨.error (.invalidStatus "backlog" s), d, []⟩
      else
        let apply := applyBacklogUpdate (some s) summary theme related
        let newBacklog := updateFirst (fun b => b.id == i) apply d.backlog
        let d2 : WorkIndex := { d with backlog := newBacklog }
        ⟨.ok (apply item), d2, [d2]⟩
    | none =>
      let apply := applyBacklogUpdate none summary theme related
      let newBacklog := updateFirst (fun b => b.id == i) apply d.backlog
      let d2 : WorkIndex := { d with backlog := newBacklog }
      ⟨.ok (apply item), d2, [d2]⟩

/-- Model of `worksync_create_sprint` (server.py:466-513): status check,
duplicate-id check over the sprints, then append the new sprint dict
(`file` derived as `id.upper() + ".md"`, empty stories) and save. -/
def worksync_create_sprint (d : WorkIndex) (i title goal : String)
    (themes : Option (List String)) (status : String) : ToolOut Sprint :=
  if sprintStatuses.contains status = false then
    ⟨.error (.invalidStatus "sprint" status), d, []⟩
  else if d.sprints.any (fun s => s.id == i) then
    ⟨.error (.conflict i), d, []⟩
  else
    let sp : Sprint := ⟨i, title, i.toUpper ++ ".md", status, goal, themes.getD [], []⟩
    let d2 : WorkIndex := { d with sprints := d.sprints ++ [sp] }
    ⟨.ok sp, d2, [d2]⟩

/-- The field assignments of `worksync_update_sprint` (server.py:548-558). -/
def applySprintUpdate (status title goal : Option String)
    (themes : Option (List String)) (q : Sprint) : Sprint :=
  { q with status := status.getD q.status, title := title.getD q.title,
           goal := goal.getD q.goal, themes := themes.getD q.themes }

/-- Model of `worksync_update_sprint` (server.py:517-562): find the
sprint, validate the supplied status first, then apply exactly the
supplied fields and save. -/
def worksync_update_sprint (d : WorkIndex) (i : String)
    (status title goal : Option String) (themes : Option (List String)) :
    ToolOut Sprint :=
  match d.sprints.find? (fun s => s.id == i) with
  | none => ⟨.error (.notFound i), d, []⟩
  | some sp =>
    match status with
    | some s =>
      if sprintStatuses.contains s = false then
        ⟨.error (.invalidStatus "sprint" s), d, []⟩
      else
        let apply := applySprintUpdate (some s) title goal themes
        let newSprints := updateFirst (fun q => q.id == i) apply d.sprints
        let d2 : WorkIndex := { d with sprints := newSprints }
        ⟨.ok (apply sp), d2, [d2]⟩
    | none =>
      let apply := applySprintUpdate none title goal themes
      let newSprints := updateFirst (fun q => q.id == i) apply d.sprints
      let d2 : WorkIndex := { d with sprints := newSprints }
      ⟨.ok (apply sp), d2, [d2]⟩

/-- Does this stories entry hold a dict story with the given id?  Model of
`isinstance(s, dict) and s.get("id") == story_id`. -/
def isStoryWithId (storyId : String) : StoryEntry → Bool
  | .story st => st.id == storyId
  | .other _ => false

/-- Model of `worksync_add_story` (server.py:566-610): status check, find
the sprint, duplicate check over the dict stories of that sprint, then
append the new story dict (`notes` key only when notes is nonempty) and
save. -/
def worksync_add_story (d : WorkIndex) (sprintId storyId status notes : String) :
    ToolOut Story :=
  if storyStatuses.contains status = false then
    ⟨.error (.invalidStatus "story" status), d, []⟩
  else
    match d.sprints.find? (fun s => s.id == sprintId) with
    | none => ⟨.error (.notFound sprintId), d, []⟩
    | some sp =>
      if sp.stories.any (isStoryWithId storyId) then
        ⟨.error (.conflict storyId), d, []⟩
      else
        let st : Story := ⟨storyId, status, if notes == "" then none else some notes⟩
        let newSprints :=
          updateFirst (fun s => s.id == sprintId)
            (fun s => { s with stories := s.stories ++ [.story st] }) d.sprints
        let d2 : WorkIndex := { d with sprints := newSprints }
        ⟨.ok st, d2, [d2]⟩

/-- First dict story with the given id in a sprint, the model of
`next((s for s in stories if isinstance(s, dict) and s.get("id") == story_id), None)`. -/
def findStoryIn (sp : Sprint) (storyId : String) : Option Story :=
  match sp.stories.find? (isStoryWithId storyId) with
  | some (.story st) => some st
  | _ => none

/-- Model of `worksync_update_story` (server.py:614-658): find the sprint,
find the dict story in it, validate the supplied status first, then apply
exactly the supplied fields to the found story and save. -/
def applyStoryUpdate (status notes : Option String) (q : Story) : Story :=
  { q with status := status.getD q.status,
           notes := (match notes with
                     | some n => some n
                     | none => q.notes) }

/-- The in-place story mutation of `worksync_update_story`, lifted to a
stories entry; non-dict entries are never the found story. -/
def applyStoryEntryUpdate (status notes : Option String) : StoryEntry → StoryEntry
  | .story q => .story (applyStoryUpdate status notes q)
  | .other r => .other r

/-- Replace the stories list of a sprint dict in place. -/
def updateStoriesIn (f : List StoryEntry → List StoryEntry) (q : Sprint) : Sprint :=
  { q with stories := f q.stories }

def worksync_update_story (d : WorkIndex) (sprintId storyId : String)
    (status notes : Option String) : ToolOut Story :=
  match d.sprints.find? (fun s => s.id == sprintId) with
  | none => ⟨.error (.notFound sprintId), d, []⟩
  | some sp =>
    match findStoryIn sp storyId with
    | none => ⟨.error (.notFound storyId), d, []⟩
    | some st =>
      match status with
      | some s =>
        if storyStatuses.contains s = false then
          ⟨.error (.invalidStatus "story" s), d, []⟩
        else
          let newSprints :=
            updateFirst (fun q => q.id == sprintId)
              (updateStoriesIn (updateFirst (isStoryWithId storyId) (applyStoryEntryUpdate (some s) notes)))
              d.sprints
          let d2 : WorkIndex := { d with sprints := newSprints }
          ⟨.ok (applyStoryUpdate (some s) notes st), d2, [d2]⟩
      | none =>
        let newSprints :=
          updateFirst (fun q => q.id == sprintId)
            (updateStoriesIn (updateFirst (isStoryWithId storyId) (applyStoryEntryUpdate none notes)))
            d.sprints
        let d2 : WorkIndex := { d with sprints := newSprints }
        ⟨.ok (applyStoryUpdate none notes st), d2, [d2]⟩

/-- Does the sprint contain a dict story with the given id? -/
def sprintHasStory (storyId : String) (sp : Sprint) : Bool :=
  sp.stories.any (isStoryWithId storyId)

/-- The sprint filter of `worksync_done`: skip sprints not matching a
supplied sprint_id, then look for the story (server.py:690-699). -/
def doneSprintPred (sprintId : Option String) (storyId : String) (sp : Sprint) : Bool :=
  (match sprintId with
   | some sid => sp.id == sid
   | none => true) && sprintHasStory storyId sp

/-- In-place update of the found story by `worksync_done`
(server.py:706-708): status becomes done, notes overwritten only when
nonempty. -/
def doneStory (notes : String) (st : Story) : Story :=
  { st with status := "done",
            notes := if notes == "" then st.notes else some notes }

def markDoneEntry (notes : String) : StoryEntry → StoryEntry
  | .story st => .story (doneStory notes st)
  | .other r => .other r

/-- The history summary built by `worksync_done` (server.py:714). -/
def doneSummary (storyId notes : String) : String :=
  if notes == "" then "Completed " ++ storyId
  else "Completed " ++ storyId ++ ": " ++ notes

/-- Model of `worksync_done` (server.py:662-725): find the first sprint
(passing the sprint_id filter) containing a dict story with the id, mark
that story done, append one history entry dated today whose summary is
"Completed <id>" or "Completed <id>: <notes>" and whose related_sprints is
the one-element list of the found sprint id, and commit both changes in a
single save. -/
def worksync_done (d : WorkIndex) (storyId notes : String)
    (sprintId : Option String) (today : String) : ToolOut (Story × String × HistoryEntry) :=
  match d.sprints.find? (doneSprintPred sprintId storyId) with
  | none => ⟨.error (.notFound storyId), d, []⟩
  | some sp =>
    match findStoryIn sp storyId with
    | none => ⟨.error (.notFound storyId), d, []⟩
    | some st =>
      let st2 : Story := doneStory notes st
      let entry : HistoryEntry := ⟨today, doneSummary storyId notes, some [sp.id]⟩
      let newSprints :=
        updateFirst (doneSprintPred sprintId storyId)
          (updateStoriesIn (updateFirst (isStoryWithId storyId) (markDoneEntry notes)))
          d.sprints
      let d2 : WorkIndex :=
        { d with sprints := newSprints, history := d.history ++ [entry] }
      ⟨.ok (st2, sp.id, entry), d2, [d2]⟩

/- ## Helper lemmas -/

theorem find?_middle {α : Type} (p : α → Bool) (l1 : List α) (x : α) (l2 : List α)
    (h1 : ∀ y ∈ l1, p y = false) (hx : p x = true) :
    (l1 ++ x :: l2).find? p = some x := by
  induction l1 with
  | nil => simp [List.find?, hx]
  | cons a as ih =>
    have ha : p a = false := h1 a (List.mem_cons_self a as)
    simpa [List.find?, ha] using ih (fun y hy => h1 y (List.mem_cons_of_mem a hy))

theorem updateFirst_middle {α : Type} (p : α → Bool) (f : α → α)
    (l1 : List α) (x : α) (l2 : List α)
    (h1 : ∀ y ∈ l1, p y = false) (hx : p x = true) :
    updateFirst p f (l1 ++ x :: l2) = l1 ++ f x :: l2 := by
  induction l1 with
  | nil => simp [updateFirst, hx]
  | cons a as ih =>
    have ha : p a = false := h1 a (List.mem_cons_self a as)
    simp [updateFirst, ha, ih (fun y hy => h1 y (List.mem_cons_of_mem a hy))]

theorem decodeList_map {α : Type} (f : YVal → Option α) (g : α → YVal)
    (hfg : ∀ a, f (g a) = some a) (xs : List α) :
    decodeList f (xs.map g) = some xs := by
  induction xs with
  | nil => rfl
  | cons a as ih => simp [decodeList, hfg a, ih]

theorem storyEntryOfY_toY (e : StoryEntry) : storyEntryOfY (storyEntryToY e) = some e := by
  cases e with
  | story st =>
    cases st with
    | mk i s notes => cases notes <;> rfl
  | other raw => rfl

theorem strOfY_str (s : String) : strOfY (YVal.str s) = some s := rfl

theorem sprintOfY_toY (sp : Sprint) : sprintOfY (sprintToY sp) = some sp := by
  cases sp with
  | mk i t f s g themes stories =>
    simp [sprintToY, sprintOfY,
      decodeList_map strOfY YVal.str strOfY_str,
      decodeList_map storyEntryOfY storyEntryToY storyEntryOfY_toY]

theorem backlogOfY_toY (b : BacklogItem) : backlogOfY (backlogToY b) = some b := by
  cases b with
  | mk i t s st rel =>
    simp [backlogToY, backlogOfY, decodeList_map strOfY YVal.str strOfY_str]

theorem historyOfY_toY (h : HistoryEntry) : historyOfY (historyToY h) = some h := by
  cases h with
  | mk d s rel =>
    cases rel with
    | none => rfl
    | some rs =>
      simp [historyToY, historyOfY, decodeList_map strOfY YVal.str strOfY_str]

theorem docOfY_toY (d : WorkIndex) : docOfY (docToY d) = some d := by
  cases d with
  | mk sprints backlog history =>
    simp [docToY, docOfY,
      decodeList_map sprintOfY sprintToY sprintOfY_toY,
      decodeList_map backlogOfY backlogToY backlogOfY_toY,
      decodeList_map historyOfY historyToY historyOfY_toY]

theorem lookupTimer_upsert (m : List (String × Nat)) (n : Nat) (p : String) (v : Nat) :
    lookupTimer ⟨upsertTimer m p v, n⟩ p = some v := by
  induction m with
  | nil => simp [upsertTimer, lookupTimer, List.find?]
  | cons qw rest ih =>
    obtain ⟨q, w⟩ := qw
    by_cases hq : q == p
    · simp [upsertTimer, hq, lookupTimer, List.find?]
    · simpa [upsertTimer, hq, lookupTimer, List.find?] using ih

theorem firesOf_burst (delay : Nat) :
    ∀ (ts : List Nat) (h : ts ≠ []),
      ts.Chain' (fun a b => b < a + delay) →
        firesOf delay ts = [ts.getLast h + delay] := by
  intro ts
  induction ts with
  | nil => intro h; exact absurd rfl h
  | cons t rest ih =>
    intro h hb
    cases rest with
    | nil => simp [firesOf]
    | cons t2 rest2 =>
      rw [List.chain'_cons] at hb
      have h2 : (t2 :: rest2 : List Nat) ≠ [] := by simp
      have ht := ih h2 hb.2
      have hgl : (t :: t2 :: rest2).getLast h = (t2 :: rest2).getLast h2 :=
        List.getLast_cons h2
      rw [hgl]
      simpa [firesOf, hb.1] using ht

/- ## Claim theorems -/

/-- C1: if `_save_work_index` fails during the temp-file write, the
validation re-parse, or the atomic replace, then the temporary file is
removed, the target file content is byte-for-byte its pre-save content,
and the function raises instead of returning normally. -/
theorem save_failure_is_atomic (content : String) (fw fv fr : Bool) (fs : Fs)
    (h : fw = true ∨ fv = true ∨ fr = true) :
    (save_work_index_fs content fw fv fr fs).raised = true
    ∧ (save_work_index_fs content fw fv fr fs).fs.target = fs.target
    ∧ (save_work_index_fs content fw fv fr fs).fs.tmp = none := by
  cases fw <;> cases fv <;> cases fr <;> simp_all [save_work_index_fs]

theorem save_failure_is_atomic_witness :
    (save_work_index_fs "new" false true false ⟨some "old", none⟩).raised = true
    ∧ (save_work_index_fs "new" false true false ⟨some "old", none⟩).fs.target = some "old"
    ∧ (save_work_index_fs "new" false true false ⟨some "old", none⟩).fs.tmp = none :=
  save_failure_is_atomic "new" false true false ⟨some "old", none⟩ (Or.inr (Or.inl rfl))

/-- C3: loading after saving returns the document unchanged — both at the
level of the YAML value written to disk and at the level of the structured
document the mutation tools build — and saving again immediately after
loading reproduces the on-disk file exactly. -/
theorem load_save_round_trip (D : WorkIndex) :
    parseFile (saveContent (docToY D)) = docToY D
    ∧ docOfY (docToY D) = some D
    ∧ saveContent (parseFile (saveContent (docToY D))) = saveContent (docToY D) := by
  have h1 : parseFile (saveContent (docToY D)) = docToY D := by
    simp [parseFile, saveContent, docToY, pyFalsy]
  exact ⟨h1, docOfY_toY D, by rw [h1]⟩

/-- C2 counterexample: `worksync_register_project` writes the initial
work-index document with a direct in-place `open(path, "w")` write outside
the lock (server.py:948-951), so it is not true that no server operation
ever writes a work-index document by a direct in-place write. -/
theorem register_project_writes_work_index_in_place :
    ∃ e ∈ register_project_writes "alpha",
      e.path = workIndexPath "alpha" ∧ e.kind = .inPlace ∧ e.underLock = false :=
  ⟨⟨workIndexPath "alpha", .inPlace, false⟩,
   List.mem_cons_self _ _, rfl, rfl, rfl⟩

/-- C2 (amended): every commit performed through `_save_work_index` —
hence every disk write of every mutation tool, since those commit only via
`_save_work_index` — is an atomic replace of the work-index path executed
inside the process-wide lock; `worksync_register_project`, however, writes
the initial work-index document by a direct in-place write outside the
lock. -/
theorem save_commits_are_locked_atomic :
    (∀ (p : String) (saved : List WorkIndex) (e : WriteEvent),
        e ∈ saved.flatMap (fun _ => save_work_index_writes p) →
          e.kind = .atomicReplace ∧ e.underLock = true ∧ e.path = workIndexPath p)
    ∧ (⟨workIndexPath "alpha", .inPlace, false⟩ : WriteEvent) ∈
        register_project_writes "alpha" := by
  constructor
  · intro p saved e he
    simp only [List.mem_flatMap, save_work_index_writes, List.mem_singleton] at he
    obtain ⟨-, -, rfl⟩ := he
    exact ⟨rfl, rfl, rfl⟩
  · exact List.mem_cons_self _ _

theorem save_commits_are_locked_atomic_witness :
    (⟨workIndexPath "beta", WriteKind.atomicReplace, true⟩ : WriteEvent).kind = .atomicReplace
    ∧ (⟨workIndexPath "beta", WriteKind.atomicReplace, true⟩ : WriteEvent).underLock = true
    ∧ (⟨workIndexPath "beta", WriteKind.atomicReplace, true⟩ : WriteEvent).path = workIndexPath "beta" :=
  save_commits_are_locked_atomic.1 "beta" [⟨[], [], []⟩]
    ⟨workIndexPath "beta", WriteKind.atomicReplace, true⟩ (by simp [save_work_index_writes])

/-- C4 counterexample: after the timer queued for project alpha fires,
`_run_sync` leaves the pending-timer slot occupied by the expired timer —
the slot is not cleared. -/
theorem run_sync_does_not_clear_slot :
    lookupTimer (run_sync_timers (queue_sync ⟨[], 0⟩ "alpha").1 "alpha") "alpha" = some 0
    ∧ lookupTimer (run_sync_timers (queue_sync ⟨[], 0⟩ "alpha").1 "alpha") "alpha" ≠ none := by
  exact ⟨rfl, by simp [queue_sync, run_sync_timers, upsertTimer, lookupTimer, List.find?]⟩

/-- C4 (amended): `_queue_sync` cancels and replaces any pending timer for
the project, so a burst of commits — each arriving strictly within the
debounce delay of the previous one — yields exactly one regeneration run,
fired the debounce delay after the last commit; but when a timer fires the
pending-timer slot for the project is not cleared: the expired timer stays
in the map until the next `_queue_sync` replaces it. -/
theorem debounce_coalesces_bursts (delay : Nat) (ts : List Nat) (h : ts ≠ [])
    (hb : ts.Chain' (fun a b => b < a + delay)) :
    firesOf delay ts = [ts.getLast h + delay]
    ∧ (∀ (s : SchedState) (p : String),
        lookupTimer (queue_sync s p).1 p = some s.nextId
        ∧ (queue_sync s p).2 = lookupTimer s p
        ∧ run_sync_timers (queue_sync s p).1 p = (queue_sync s p).1) := by
  refine ⟨firesOf_burst delay ts h hb, fun s p => ⟨?_, rfl, rfl⟩⟩
  exact lookupTimer_upsert s.timers (s.nextId + 1) p s.nextId

theorem debounce_coalesces_bursts_witness :
    firesOf 2 [10, 11, 12] = [12 + 2]
    ∧ (∀ (s : SchedState) (p : String),
        lookupTimer (queue_sync s p).1 p = some s.nextId
        ∧ (queue_sync s p).2 = lookupTimer s p
        ∧ run_sync_timers (queue_sync s p).1 p = (queue_sync s p).1) :=
  debounce_coalesces_bursts 2 [10, 11, 12] (by decide) (by norm_num [List.chain'_cons])

/-- C5: `_load_work_index` always re-reads the document from disk — its
result is a function of the on-disk file alone; a cached mtime differing
from the on-disk one flags an external edit but is not rejected, the
on-disk content is returned and the cache is updated to the observed
mtime; and a subsequent save through the load-then-save skeleton commits
state derived from the on-disk content. -/
theorem load_absorbs_external_edits (proj : String) (st : StoreState) (f : WFile)
    (hf : st.file = some f) :
    load_work_index proj st =
      .ok ⟨parseFile f, some st.mtime,
           (match st.cache with
            | some c => decide (c ≠ st.mtime)
            | none => false)⟩
    ∧ (∀ c, st.cache = some c → c ≠ st.mtime →
        load_work_index proj st = .ok ⟨parseFile f, some st.mtime, true⟩)
    ∧ (∀ t : YVal → YVal, loadThenSave proj st t = .ok (saveContent (t (parseFile f)))) := by
  have h1 : load_work_index proj st =
      .ok ⟨parseFile f, some st.mtime,
           (match st.cache with
            | some c => decide (c ≠ st.mtime)
            | none => false)⟩ := by
    unfold load_work_index
    rw [hf]
  refine ⟨h1, ?_, ?_⟩
  · intro c hc hne
    rw [h1, hc]
    simp [hne]
  · intro t
    unfold loadThenSave
    rw [h1]

theorem load_absorbs_external_edits_witness :
    load_work_index "demo" ⟨some ⟨true, none⟩, 7, some 3⟩ =
      .ok ⟨parseFile ⟨true, none⟩, some 7,
           (match (some 3 : Option Nat) with
            | some c => decide (c ≠ 7)
            | none => false)⟩
    ∧ (∀ c, (some 3 : Option Nat) = some c → c ≠ 7 →
        load_work_index "demo" ⟨some ⟨true, none⟩, 7, some 3⟩ =
          .ok ⟨parseFile ⟨true, none⟩, some 7, true⟩)
    ∧ (∀ t : YVal → YVal,
        loadThenSave "demo" ⟨some ⟨true, none⟩, 7, some 3⟩ t =
          .ok (saveContent (t (parseFile ⟨true, none⟩)))) :=
  load_absorbs_external_edits "demo" ⟨some ⟨true, none⟩, 7, some 3⟩ ⟨true, none⟩ rfl

/-- C10 counterexample: a missing work-index file is not treated as an
empty structure — `_load_work_index` raises `FileNotFoundError`
(server.py:161-162). -/
theorem load_missing_file_raises :
    load_work_index "demo" ⟨none, 0, none⟩ = .error (.notFound "demo") := rfl

/-- C10 (amended): an empty work-index document (file present, null YAML
body) is treated as an empty structure: the load succeeds and all three
sections read as empty sequences; a missing file, by contrast, raises
`NotFound`. -/
theorem load_empty_doc_is_empty_structure (proj : String) (st : StoreState) (hb : Bool)
    (h : st.file = some ⟨hb, none⟩) :
    (∃ w, load_work_index proj st = .ok ⟨.map [], some st.mtime, w⟩
      ∧ dictGet (.map []) "sprints" (.seq []) = .seq []
      ∧ dictGet (.map []) "backlog" (.seq []) = .seq []
      ∧ dictGet (.map []) "history" (.seq []) = .seq [])
    ∧ (∀ (mt : Nat) (c : Option Nat),
        load_work_index proj ⟨none, mt, c⟩ = .error (.notFound proj)) := by
  constructor
  · refine ⟨(match st.cache with
             | some c => decide (c ≠ st.mtime)
             | none => false), ?_, rfl, rfl, rfl⟩
    unfold load_work_index
    rw [h]
    rfl
  · intro mt c
    rfl

theorem load_empty_doc_is_empty_structure_witness :
    (∃ w, load_work_index "demo" ⟨some ⟨true, none⟩, 4, none⟩ = .ok ⟨.map [], some 4, w⟩
      ∧ dictGet (.map []) "sprints" (.seq []) = .seq []
      ∧ dictGet (.map []) "backlog" (.seq []) = .seq []
      ∧ dictGet (.map []) "history" (.seq []) = .seq [])
    ∧ (∀ (mt : Nat) (c : Option Nat),
        load_work_index "demo" ⟨none, mt, c⟩ = .error (.notFound "demo")) :=
  load_empty_doc_is_empty_structure "demo" ⟨some ⟨true, none⟩, 4, none⟩ true rfl

/-- Is this tool result a structured error? -/
def isError {α : Type} : Except WErr α → Bool
  | .error _ => true
  | .ok _ => false

/-- C6: when the document contains a story S (first found in sprint SP),
`worksync_done` sets that story's status to done, appends exactly one
history entry whose summary references S and whose related_sprints is the
one-element list of SP's id, and commits both changes in one single save:
the saved list is exactly the one new document. -/
theorem worksync_done_single_commit
    (ps qs : List Sprint) (sp : Sprint) (ss1 ss2 : List StoryEntry) (st : Story)
    (bl : List BacklogItem) (hist : List HistoryEntry) (notes today : String)
    (hps : ∀ q ∈ ps, sprintHasStory st.id q = false)
    (hss1 : ∀ e ∈ ss1, isStoryWithId st.id e = false)
    (hsp : sp.stories = ss1 ++ .story st :: ss2) :
    worksync_done ⟨ps ++ sp :: qs, bl, hist⟩ st.id notes none today =
      ⟨.ok (doneStory notes st, sp.id, ⟨today, doneSummary st.id notes, some [sp.id]⟩),
       ⟨ps ++ { sp with stories := ss1 ++ .story (doneStory notes st) :: ss2 } :: qs,
        bl, hist ++ [⟨today, doneSummary st.id notes, some [sp.id]⟩]⟩,
       [⟨ps ++ { sp with stories := ss1 ++ .story (doneStory notes st) :: ss2 } :: qs,
         bl, hist ++ [⟨today, doneSummary st.id notes, some [sp.id]⟩]⟩]⟩ := by
  have hpred_ps : ∀ q ∈ ps, doneSprintPred none st.id q = false := by
    intro q hq
    simp [doneSprintPred, hps q hq]
  have hpred_sp : doneSprintPred none st.id sp = true := by
    simp [doneSprintPred, sprintHasStory, hsp, isStoryWithId]
  have hfind : (ps ++ sp :: qs).find? (doneSprintPred none st.id) = some sp :=
    find?_middle _ ps sp qs hpred_ps hpred_sp
  have hfs : sp.stories.find? (isStoryWithId st.id) = some (.story st) := by
    rw [hsp]
    exact find?_middle _ ss1 _ ss2 hss1 (by simp [isStoryWithId])
  have hfsi : findStoryIn sp st.id = some st := by
    unfold findStoryIn
    rw [hfs]
  have hupd2 : updateStoriesIn (updateFirst (isStoryWithId st.id) (markDoneEntry notes)) sp
      = { sp with stories := ss1 ++ .story (doneStory notes st) :: ss2 } := by
    unfold updateStoriesIn
    rw [hsp, updateFirst_middle _ _ ss1 _ ss2 hss1 (by simp [isStoryWithId])]
    rfl
  have hupd : updateFirst (doneSprintPred none st.id)
      (updateStoriesIn (updateFirst (isStoryWithId st.id) (markDoneEntry notes)))
      (ps ++ sp :: qs)
      = ps ++ { sp with stories := ss1 ++ .story (doneStory notes st) :: ss2 } :: qs := by
    rw [updateFirst_middle _ _ ps sp qs hpred_ps hpred_sp, hupd2]
  simp only [worksync_done, hfind, hfsi, hupd]

theorem worksync_done_single_commit_witness :
    worksync_done
        ⟨[⟨"sp1", "T", "SP1.md", "planned", "", [], [.story ⟨"ST-1", "planned", none⟩]⟩], [], []⟩
        "ST-1" "" none "2026-10-12" =
      ⟨.ok (⟨"ST-1", "done", none⟩, "sp1", ⟨"2026-10-12", "Completed ST-1", some ["sp1"]⟩),
       ⟨[⟨"sp1", "T", "SP1.md", "planned", "", [], [.story ⟨"ST-1", "done", none⟩]⟩], [],
        [⟨"2026-10-12", "Completed ST-1", some ["sp1"]⟩]⟩,
       [⟨[⟨"sp1", "T", "SP1.md", "planned", "", [], [.story ⟨"ST-1", "done", none⟩]⟩], [],
         [⟨"2026-10-12", "Completed ST-1", some ["sp1"]⟩]⟩]⟩ :=
  worksync_done_single_commit []
    [] ⟨"sp1", "T", "SP1.md", "planned", "", [], [.story ⟨"ST-1", "planned", none⟩]⟩
    [] [] ⟨"ST-1", "planned", none⟩ [] [] "" "2026-10-12"
    (by simp) (by simp) rfl

/-- C7: supplying a status outside the enumerated set makes every add or
update tool return a structured error, leave the document unchanged
(including any other fields supplied in the same call), and attempt no
disk write. -/
theorem invalid_status_is_rejected :
    (∀ (d : WorkIndex) (i su th s : String) (rel : Option (List String)),
        backlogStatuses.contains s = false →
          worksync_add_backlog d i su th s rel = ⟨.error (.invalidStatus "backlog" s), d, []⟩)
    ∧ (∀ (d : WorkIndex) (i ti go s : String) (th : Option (List String)),
        sprintStatuses.contains s = false →
          worksync_create_sprint d i ti go th s = ⟨.error (.invalidStatus "sprint" s), d, []⟩)
    ∧ (∀ (d : WorkIndex) (sid stid s no : String),
        storyStatuses.contains s = false →
          worksync_add_story d sid stid s no = ⟨.error (.invalidStatus "story" s), d, []⟩)
    ∧ (∀ (d : WorkIndex) (i s : String) (su th : Option String) (rel : Option (List String)),
        backlogStatuses.contains s = false →
          isError (worksync_update_backlog d i (some s) su th rel).result = true
          ∧ (worksync_update_backlog d i (some s) su th rel).doc = d
          ∧ (worksync_update_backlog d i (some s) su th rel).saved = [])
    ∧ (∀ (d : WorkIndex) (i s : String) (ti go : Option String) (th : Option (List String)),
        sprintStatuses.contains s = false →
          isError (worksync_update_sprint d i (some s) ti go th).result = true
          ∧ (worksync_update_sprint d i (some s) ti go th).doc = d
          ∧ (worksync_update_sprint d i (some s) ti go th).saved = [])
    ∧ (∀ (d : WorkIndex) (sid stid s : String) (no : Option String),
        storyStatuses.contains s = false →
          isError (worksync_update_story d sid stid (some s) no).result = true
          ∧ (worksync_update_story d sid stid (some s) no).doc = d
          ∧ (worksync_update_story d sid stid (some s) no).saved = []) := by
  refine ⟨?_, ?_, ?_, ?_, ?_, ?_⟩
  · intro d i su th s rel h
    simp only [worksync_add_backlog, h]
    simp
  · intro d i ti go s th h
    simp only [worksync_create_sprint, h]
    simp
  · intro d sid stid s no h
    simp only [worksync_add_story, h]
    simp
  · intro d i s su th rel h
    cases hf : d.backlog.find? (fun b => b.id == i) with
    | none => simp [worksync_update_backlog, hf, isError]
    | some item =>
      have h2 : s ∉ backlogStatuses := by simpa using h
      simp [worksync_update_backlog, hf, h2, isError]
  · intro d i s ti go th h
    cases hf : d.sprints.find? (fun q => q.id == i) with
    | none => simp [worksync_update_sprint, hf, isError]
    | some sp =>
      have h2 : s ∉ sprintStatuses := by simpa using h
      simp [worksync_update_sprint, hf, h2, isError]
  · intro d sid stid s no h
    cases hf : d.sprints.find? (fun q => q.id == sid) with
    | none => simp [worksync_update_story, hf, isError]
    | some sp =>
      cases hfs : findStoryIn sp stid with
      | none => simp [worksync_update_story, hf, hfs, isError]
      | some st =>
        have h2 : s ∉ storyStatuses := by simpa using h
        simp [worksync_update_story, hf, hfs, h2, isError]

theorem invalid_status_is_rejected_witness :
    worksync_add_backlog ⟨[], [], []⟩ "b1" "s" "t" "bogus" none
      = ⟨.error (.invalidStatus "backlog" "bogus"), ⟨[], [], []⟩, []⟩
    ∧ worksync_create_sprint ⟨[], [], []⟩ "sp1" "T" "" none "bogus"
      = ⟨.error (.invalidStatus "sprint" "bogus"), ⟨[], [], []⟩, []⟩
    ∧ worksync_add_story ⟨[], [], []⟩ "sp1" "ST-1" "bogus" ""
      = ⟨.error (.invalidStatus "story" "bogus"), ⟨[], [], []⟩, []⟩
    ∧ (isError (worksync_update_backlog ⟨[], [], []⟩ "b1" (some "bogus") none none none).result = true
       ∧ (worksync_update_backlog ⟨[], [], []⟩ "b1" (some "bogus") none none none).doc = ⟨[], [], []⟩
       ∧ (worksync_update_backlog ⟨[], [], []⟩ "b1" (some "bogus") none none none).saved = [])
    ∧ (isError (worksync_update_sprint ⟨[], [], []⟩ "sp1" (some "bogus") none none none).result = true
       ∧ (worksync_update_sprint ⟨[], [], []⟩ "sp1" (some "bogus") none none none).doc = ⟨[], [], []⟩
       ∧ (worksync_update_sprint ⟨[], [], []⟩ "sp1" (some "bogus") none none none).saved = [])
    ∧ (isError (worksync_update_story ⟨[], [], []⟩ "sp1" "ST-1" (some "bogus") none).result = true
       ∧ (worksync_update_story ⟨[], [], []⟩ "sp1" "ST-1" (some "bogus") none).doc = ⟨[], [], []⟩
       ∧ (worksync_update_story ⟨[], [], []⟩ "sp1" "ST-1" (some "bogus") none).saved = []) :=
  ⟨invalid_status_is_rejected.1 ⟨[], [], []⟩ "b1" "s" "t" "bogus" none (by decide),
   invalid_status_is_rejected.2.1 ⟨[], [], []⟩ "sp1" "T" "" "bogus" none (by decide),
   invalid_status_is_rejected.2.2.1 ⟨[], [], []⟩ "sp1" "ST-1" "bogus" "" (by decide),
   invalid_status_is_rejected.2.2.2.1 ⟨[], [], []⟩ "b1" "bogus" none none none (by decide),
   invalid_status_is_rejected.2.2.2.2.1 ⟨[], [], []⟩ "sp1" "bogus" none none none (by decide),
   invalid_status_is_rejected.2.2.2.2.2 ⟨[], [], []⟩ "sp1" "ST-1" "bogus" none (by decide)⟩

/-- C8: creating a backlog item, sprint, or story whose id already exists
in its scope (document-wide backlog, document-wide sprints, the owning
sprint's dict stories) returns a conflict error, leaves the in-memory
document unchanged, and performs no save. -/
theorem duplicate_id_is_conflict :
    (∀ (d : WorkIndex) (i su th s : String) (rel : Option (List String)),
        backlogStatuses.contains s = true →
        d.backlog.any (fun b => b.id == i) = true →
          worksync_add_backlog d i su th s rel = ⟨.error (.conflict i), d, []⟩)
    ∧ (∀ (d : WorkIndex) (i ti go s : String) (th : Option (List String)),
        sprintStatuses.contains s = true →
        d.sprints.any (fun q => q.id == i) = true →
          worksync_create_sprint d i ti go th s = ⟨.error (.conflict i), d, []⟩)
    ∧ (∀ (d : WorkIndex) (sid stid s no : String) (sp : Sprint),
        storyStatuses.contains s = true →
        d.sprints.find? (fun q => q.id == sid) = some sp →
        sp.stories.any (isStoryWithId stid) = true →
          worksync_add_story d sid stid s no = ⟨.error (.conflict stid), d, []⟩) := by
  refine ⟨?_, ?_, ?_⟩
  · intro d i su th s rel hs hdup
    simp [worksync_add_backlog, hs, hdup]
    simpa using hs
  · intro d i ti go s th hs hdup
    simp [worksync_create_sprint, hs, hdup]
    simpa using hs
  · intro d sid stid s no sp hs hf hdup
    simp [worksync_add_story, hs, hf, hdup]
    simpa using hs

theorem duplicate_id_is_conflict_witness :
    worksync_add_backlog ⟨[], [⟨"b1", "t", "s", "todo", []⟩], []⟩ "b1" "s2" "t2" "todo" none
      = ⟨.error (.conflict "b1"), ⟨[], [⟨"b1", "t", "s", "todo", []⟩], []⟩, []⟩
    ∧ worksync_create_sprint
        ⟨[⟨"sp1", "T", "SP1.md", "planned", "", [], []⟩], [], []⟩ "sp1" "T2" "" none "planned"
      = ⟨.error (.conflict "sp1"), ⟨[⟨"sp1", "T", "SP1.md", "planned", "", [], []⟩], [], []⟩, []⟩
    ∧ worksync_add_story
        ⟨[⟨"sp1", "T", "SP1.md", "planned", "", [], [.story ⟨"ST-1", "planned", none⟩]⟩], [], []⟩
        "sp1" "ST-1" "planned" ""
      = ⟨.error (.conflict "ST-1"),
         ⟨[⟨"sp1", "T", "SP1.md", "planned", "", [], [.story ⟨"ST-1", "planned", none⟩]⟩], [], []⟩, []⟩ :=
  ⟨duplicate_id_is_conflict.1 ⟨[], [⟨"b1", "t", "s", "todo", []⟩], []⟩ "b1" "s2" "t2" "todo" none
     (by decide) (by decide),
   duplicate_id_is_conflict.2.1 ⟨[⟨"sp1", "T", "SP1.md", "planned", "", [], []⟩], [], []⟩
     "sp1" "T2" "" "planned" none (by decide) (by decide),
   duplicate_id_is_conflict.2.2
     ⟨[⟨"sp1", "T", "SP1.md", "planned", "", [], [.story ⟨"ST-1", "planned", none⟩]⟩], [], []⟩
     "sp1" "ST-1" "planned" "" ⟨"sp1", "T", "SP1.md", "planned", "", [], [.story ⟨"ST-1", "planned", none⟩]⟩
     (by decide) (by decide) (by decide)⟩

/-- C9: on an existing entity, each update tool changes exactly the
supplied (non-none) fields of the first entity matching the id — omitted
fields keep their prior value, as the applied update functions show — and
every other entity and the other top-level sequences are unchanged; the
result is committed in one save. -/
theorem partial_update_frame :
    (∀ (sps : List Sprint) (hist : List HistoryEntry) (bl1 bl2 : List BacklogItem)
        (b : BacklogItem) (i : String) (so su th : Option String) (rel : Option (List String)),
        (∀ y ∈ bl1, (y.id == i) = false) →
        (b.id == i) = true →
        (so = none ∨ ∃ s, so = some s ∧ backlogStatuses.contains s = true) →
          worksync_update_backlog ⟨sps, bl1 ++ b :: bl2, hist⟩ i so su th rel =
            ⟨.ok (applyBacklogUpdate so su th rel b),
             ⟨sps, bl1 ++ applyBacklogUpdate so su th rel b :: bl2, hist⟩,
             [⟨sps, bl1 ++ applyBacklogUpdate so su th rel b :: bl2, hist⟩]⟩)
    ∧ (∀ (ps qs : List Sprint) (sp : Sprint) (bl : List BacklogItem)
        (hist : List HistoryEntry) (i : String) (so ti go : Option String)
        (th : Option (List String)),
        (∀ q ∈ ps, (q.id == i) = false) →
        (sp.id == i) = true →
        (so = none ∨ ∃ s, so = some s ∧ sprintStatuses.contains s = true) →
          worksync_update_sprint ⟨ps ++ sp :: qs, bl, hist⟩ i so ti go th =
            ⟨.ok (applySprintUpdate so ti go th sp),
             ⟨ps ++ applySprintUpdate so ti go th sp :: qs, bl, hist⟩,
             [⟨ps ++ applySprintUpdate so ti go th sp :: qs, bl, hist⟩]⟩)
    ∧ (∀ (ps qs : List Sprint) (sp : Sprint) (ss1 ss2 : List StoryEntry) (st : Story)
        (bl : List BacklogItem) (hist : List HistoryEntry) (sid stid : String)
        (so no : Option String),
        (∀ q ∈ ps, (q.id == sid) = false) →
        (sp.id == sid) = true →
        (∀ e ∈ ss1, isStoryWithId stid e = false) →
        (st.id == stid) = true →
        sp.stories = ss1 ++ .story st :: ss2 →
        (so = none ∨ ∃ s, so = some s ∧ storyStatuses.contains s = true) →
          worksync_update_story ⟨ps ++ sp :: qs, bl, hist⟩ sid stid so no =
            ⟨.ok (applyStoryUpdate so no st),
             ⟨ps ++ { sp with stories := ss1 ++ .story (applyStoryUpdate so no st) :: ss2 } :: qs,
              bl, hist⟩,
             [⟨ps ++ { sp with stories := ss1 ++ .story (applyStoryUpdate so no st) :: ss2 } :: qs,
               bl, hist⟩]⟩) := by
  refine ⟨?_, ?_, ?_⟩
  · intro sps hist bl1 bl2 b i so su th rel h1 h2 hso
    have hfind : (bl1 ++ b :: bl2).find? (fun y => y.id == i) = some b :=
      find?_middle _ bl1 b bl2 h1 h2
    have hupd : updateFirst (fun y => y.id == i) (applyBacklogUpdate so su th rel)
        (bl1 ++ b :: bl2) = bl1 ++ applyBacklogUpdate so su th rel b :: bl2 :=
      updateFirst_middle _ _ bl1 b bl2 h1 h2
    rcases hso with rfl | ⟨s, rfl, hs⟩
    · simp only [worksync_update_backlog, hfind, hupd]
    · simp only [worksync_update_backlog, hfind, hs, hupd]
      simp
  · intro ps qs sp bl hist i so ti go th h1 h2 hso
    have hfind : (ps ++ sp :: qs).find? (fun q => q.id == i) = some sp :=
      find?_middle _ ps sp qs h1 h2
    have hupd : updateFirst (fun q => q.id == i) (applySprintUpdate so ti go th)
        (ps ++ sp :: qs) = ps ++ applySprintUpdate so ti go th sp :: qs :=
      updateFirst_middle _ _ ps sp qs h1 h2
    rcases hso with rfl | ⟨s, rfl, hs⟩
    · simp only [worksync_update_sprint, hfind, hupd]
    · simp only [worksync_update_sprint, hfind, hs, hupd]
      simp
  · intro ps qs sp ss1 ss2 st bl hist sid stid so no h1 h2 h3 h4 hsp hso
    have hfind : (ps ++ sp :: qs).find? (fun q => q.id == sid) = some sp :=
      find?_middle _ ps sp qs h1 h2
    have hfs : sp.stories.find? (isStoryWithId stid) = some (.story st) := by
      rw [hsp]
      exact find?_middle _ ss1 _ ss2 h3 (by simp [isStoryWithId, h4])
    have hfsi : findStoryIn sp stid = some st := by
      unfold findStoryIn
      rw [hfs]
    have hinner : ∀ s2 : Option String,
        updateStoriesIn (updateFirst (isStoryWithId stid) (applyStoryEntryUpdate s2 no)) sp
        = { sp with stories := ss1 ++ .story (applyStoryUpdate s2 no st) :: ss2 } := by
      intro s2
      unfold updateStoriesIn
      rw [hsp, updateFirst_middle _ _ ss1 _ ss2 h3 (by simp [isStoryWithId, h4])]
      rfl
    rcases hso with rfl | ⟨s, rfl, hs⟩
    · have hupd : updateFirst (fun q => q.id == sid)
          (updateStoriesIn (updateFirst (isStoryWithId stid) (applyStoryEntryUpdate none no)))
          (ps ++ sp :: qs)
          = ps ++ { sp with stories := ss1 ++ .story (applyStoryUpdate none no st) :: ss2 } :: qs := by
        rw [updateFirst_middle _ _ ps sp qs h1 h2, hinner]
      simp only [worksync_update_story, hfind, hfsi, hupd]
    · have hupd : updateFirst (fun q => q.id == sid)
          (updateStoriesIn (updateFirst (isStoryWithId stid) (applyStoryEntryUpdate (some s) no)))
          (ps ++ sp :: qs)
          = ps ++ { sp with stories := ss1 ++ .story (applyStoryUpdate (some s) no st) :: ss2 } :: qs := by
        rw [updateFirst_middle _ _ ps sp qs h1 h2, hinner]
      simp only [worksync_update_story, hfind, hfsi, hs, hupd]
      simp

theorem partial_update_frame_witness :
    worksync_update_backlog ⟨[], [⟨"b1", "t", "s", "todo", []⟩], []⟩ "b1"
        (some "done") none none none =
      ⟨.ok ⟨"b1", "t", "s", "done", []⟩,
       ⟨[], [⟨"b1", "t", "s", "done", []⟩], []⟩,
       [⟨[], [⟨"b1", "t", "s", "done", []⟩], []⟩]⟩
    ∧ worksync_update_sprint ⟨[⟨"sp1", "T", "SP1.md", "planned", "", [], []⟩], [], []⟩ "sp1"
        none (some "T2") none none =
      ⟨.ok ⟨"sp1", "T2", "SP1.md", "planned", "", [], []⟩,
       ⟨[⟨"sp1", "T2", "SP1.md", "planned", "", [], []⟩], [], []⟩,
       [⟨[⟨"sp1", "T2", "SP1.md", "planned", "", [], []⟩], [], []⟩]⟩
    ∧ worksync_update_story
        ⟨[⟨"sp1", "T", "SP1.md", "planned", "", [], [.story ⟨"ST-1", "planned", none⟩]⟩], [], []⟩
        "sp1" "ST-1" (some "in_progress") none =
      ⟨.ok ⟨"ST-1", "in_progress", none⟩,
       ⟨[⟨"sp1", "T", "SP1.md", "planned", "", [], [.story ⟨"ST-1", "in_progress", none⟩]⟩], [], []⟩,
       [⟨[⟨"sp1", "T", "SP1.md", "planned", "", [], [.story ⟨"ST-1", "in_progress", none⟩]⟩], [], []⟩]⟩ :=
  ⟨partial_update_frame.1 [] [] [] [] ⟨"b1", "t", "s", "todo", []⟩ "b1"
     (some "done") none none none (by simp) (by decide)
     (Or.inr ⟨"done", rfl, by decide⟩),
   partial_update_frame.2.1 [] [] ⟨"sp1", "T", "SP1.md", "planned", "", [], []⟩ [] [] "sp1"
     none (some "T2") none none (by simp) (by decide) (Or.inl rfl),
   partial_update_frame.2.2 [] [] ⟨"sp1", "T", "SP1.md", "planned", "", [], [.story ⟨"ST-1", "planned", none⟩]⟩
     [] [] ⟨"ST-1", "planned", none⟩ [] [] "sp1" "ST-1" (some "in_progress") none
     (by simp) (by decide) (by simp) (by decide) rfl
     (Or.inr ⟨"in_progress", rfl, by decide⟩)⟩

end WorkSync
